import Mathlib

/-!
Shallow embedding of the `pyrate_limiter` admission-control engine
(`src/pyrate_limiter/limiter.py`), together with a spec-modelled
sliding-window bucket for the parts of the repository (bucket
implementations, `abstracts.py`) that are not present under `src/`.

Collaborators (`BucketFactory`, `AbstractBucket`, the time source) are
modelled as scripted oracles: the bucket answers each successive `put`
call with a boolean, exposes an availability value (the result of
`get_bucket_availability`) and an optional `failing_rate`.  The
orchestration logic of `Limiter` — `delay_or_raise`,
`handle_bucket_put`, `try_acquire`, `as_decorator`, `__init__` — is
transliterated from the source, once for the synchronous branch and
once for the asynchronous (`_handle_async`) branch, with an explicit
effect trace recording every collaborator call and every sleep.
-/

namespace PyrateLimiter

/-- A rate limit: capacity and interval, as carried by
`bucket.failing_rate` and `BucketFullException`. -/
structure Rate where
  limit : Int
  interval : Int
deriving DecidableEq, Repr

/-- `RateItem`: name, weight and the timestamp stamped by the factory.
The orchestrator mutates `timestamp` in place before a retry
(`item.timestamp += delay`). -/
structure RateItem where
  name : String
  weight : Int
  timestamp : Int
deriving DecidableEq, Repr

/-- Python-level failures the orchestration can raise:
`BucketFullException(item.name, bucket.failing_rate)` and
`AssertionError` (from `assert` statements). -/
inductive PyError where
  | bucketFull (name : String) (rate : Rate)
  | assertionError (msg : String)
deriving DecidableEq, Repr

/-- Scripted behaviour of one `AbstractBucket` collaborator.
`put i it` is the boolean answer of the `i`-th `put` call on this
bucket (the item passed is recorded in the trace); `availability it`
is the value `get_bucket_availability(bucket, item)` resolves to;
`failing_rate` is the bucket's `failing_rate` attribute. -/
structure BucketBehavior where
  put : Nat → RateItem → Bool
  availability : RateItem → Int
  failing_rate : Option Rate

/-- Scripted behaviour of the `BucketFactory` collaborator: `now` is
the timestamp its time source stamps onto wrapped items, `buckets`
routes a name to its bucket (`none` models `get` yielding something
that is not an `AbstractBucket`). -/
structure FactoryBehavior where
  now : Int
  buckets : String → Option BucketBehavior

/-- Observable effects of one orchestrated call, in order. -/
inductive Effect where
  | wrapItemCall (name : String) (weight : Int)
  | getBucketCall (item : RateItem)
  | putCall (idx : Nat) (item : RateItem)
  | blockingSleep (ms : Int)
  | asyncSleep (ms : Int)
  | scheduleLeakCall
  | scheduleFlushCall
deriving DecidableEq, Repr

/-- The `put` calls recorded in a trace, with the item each saw. -/
def putEvents : List Effect → List (Nat × RateItem)
  | [] => []
  | .putCall i it :: rest => (i, it) :: putEvents rest
  | _ :: rest => putEvents rest

/-- The durations (in ms, the value before the `/ 1000`) of all
suspensions in a trace, blocking or async alike. -/
def sleepDurations : List Effect → List Int
  | [] => []
  | .blockingSleep ms :: rest => ms :: sleepDurations rest
  | .asyncSleep ms :: rest => ms :: sleepDurations rest
  | _ :: rest => sleepDurations rest

/-- Outcome of `delay_or_raise` / `handle_bucket_put`: the Python
return-or-raise result, the effect trace, and the item's final state
(its timestamp may have been advanced in place). -/
structure DRResult where
  result : Except PyError Bool
  trace : List Effect
  item : RateItem

/-- Outcome of a full `try_acquire` call. -/
structure TAResult where
  result : Except PyError Bool
  trace : List Effect

/-- The `Limiter`'s configuration fields (`raise_when_fail`, `delay`). -/
structure Limiter where
  raise_when_fail : Bool
  delay : Option Int
deriving DecidableEq, Repr

/-- The closure `_handle_reacquire` inside `Limiter.delay_or_raise`:
raise `BucketFullException` when `raise_when_fail` and the retry was
rejected, otherwise return the retry's answer.  The `assert
bucket.failing_rate is not None` is modelled as an `AssertionError`
on `none`. -/
def handle_reacquire (L : Limiter) (bucket : BucketBehavior)
    (item : RateItem) (re_acquire : Bool) : Except PyError Bool :=
  if L.raise_when_fail = true ∧ re_acquire = false then
    match bucket.failing_rate with
    | none => .error (.assertionError "failing_rate is not None")
    | some r => .error (.bucketFull item.name r)
  else .ok re_acquire

/-- Synchronous branch of `Limiter.delay_or_raise` (the code after
`assert isinstance(delay, int)`), entered when the first `put`
rejected the item.  `putIdx` is the sequence number the retry `put`
call gets on this bucket. -/
def delay_or_raise_sync (L : Limiter) (bucket : BucketBehavior)
    (item : RateItem) (putIdx : Nat) : DRResult :=
  match L.delay with
  | none =>
    if L.raise_when_fail then
      match bucket.failing_rate with
      | none => ⟨.error (.assertionError "failing_rate is not None"), [], item⟩
      | some r => ⟨.error (.bucketFull item.name r), [], item⟩
    else ⟨.ok false, [], item⟩
  | some budget =>
    let delay := bucket.availability item + 50
    if delay > budget then
      if L.raise_when_fail then
        match bucket.failing_rate with
        | none => ⟨.error (.assertionError "failing_rate is not None"), [], item⟩
        | some r => ⟨.error (.bucketFull item.name r), [], item⟩
      else ⟨.ok false, [], item⟩
    else
      let item2 : RateItem := { item with timestamp := item.timestamp + delay }
      let re_acquire := bucket.put putIdx item2
      ⟨handle_reacquire L bucket item2 re_acquire,
        [.blockingSleep delay, .putCall putIdx item2], item2⟩

/-- Asynchronous branch of `Limiter.delay_or_raise` (the inner
coroutine `_handle_async`): awaits the availability, adds 50, checks
the budget, `asyncio.sleep`s, advances the timestamp, retries `put`
once and finishes through `_handle_reacquire`. -/
def delay_or_raise_async (L : Limiter) (bucket : BucketBehavior)
    (item : RateItem) (putIdx : Nat) : DRResult :=
  match L.delay with
  | none =>
    if L.raise_when_fail then
      match bucket.failing_rate with
      | none => ⟨.error (.assertionError "failing_rate is not None"), [], item⟩
      | some r => ⟨.error (.bucketFull item.name r), [], item⟩
    else ⟨.ok false, [], item⟩
  | some budget =>
    let delay := bucket.availability item + 50
    if delay > budget then
      if L.raise_when_fail then
        match bucket.failing_rate with
        | none => ⟨.error (.assertionError "failing_rate is not None"), [], item⟩
        | some r => ⟨.error (.bucketFull item.name r), [], item⟩
      else ⟨.ok false, [], item⟩
    else
      let item2 : RateItem := { item with timestamp := item.timestamp + delay }
      let re_acquire := bucket.put putIdx item2
      ⟨handle_reacquire L bucket item2 re_acquire,
        [.asyncSleep delay, .putCall putIdx item2], item2⟩

/-- `Limiter.handle_bucket_put`, synchronous path: one `put` call,
then `_handle_result` (return `True` on success, `delay_or_raise`
on rejection). -/
def handle_bucket_put_sync (L : Limiter) (bucket : BucketBehavior)
    (item : RateItem) : DRResult :=
  let acquire := bucket.put 0 item
  if acquire then ⟨.ok true, [.putCall 0 item], item⟩
  else
    let r := delay_or_raise_sync L bucket item 1
    ⟨r.result, .putCall 0 item :: r.trace, r.item⟩

/-- `Limiter.handle_bucket_put`, asynchronous path (`_put_async`):
awaits the `put` answer, then the shared `_handle_result`, whose
rejection branch runs the async `delay_or_raise`. -/
def handle_bucket_put_async (L : Limiter) (bucket : BucketBehavior)
    (item : RateItem) : DRResult :=
  let acquire := bucket.put 0 item
  if acquire then ⟨.ok true, [.putCall 0 item], item⟩
  else
    let r := delay_or_raise_async L bucket item 1
    ⟨r.result, .putCall 0 item :: r.trace, r.item⟩

/-- `BucketFactory.wrap_item`.  Modelled from the spec: `abstracts.py`
is not under `src/`; per the spec the factory stamps the request with
the time source's current timestamp and returns the fully formed
item. -/
def wrap_item (factory : FactoryBehavior) (name : String) (weight : Int) :
    RateItem :=
  ⟨name, weight, factory.now⟩

/-- `Limiter.try_acquire`, synchronous path: validate `weight >= 0`
(`AssertionError` otherwise), admit weight 0 immediately, otherwise
wrap the item, route to its bucket (`assert isinstance(bucket,
AbstractBucket)`) and run `handle_bucket_put`. -/
def try_acquire (L : Limiter) (factory : FactoryBehavior)
    (name : String) (weight : Int) : TAResult :=
  if weight < 0 then
    ⟨.error (.assertionError "item's weight must be >= 0"), []⟩
  else if weight = 0 then
    ⟨.ok true, []⟩
  else
    let item := wrap_item factory name weight
    match factory.buckets name with
    | none =>
      ⟨.error (.assertionError "Invalid bucket"),
        [.wrapItemCall name weight, .getBucketCall item]⟩
    | some bucket =>
      let r := handle_bucket_put_sync L bucket item
      ⟨r.result, .wrapItemCall name weight :: .getBucketCall item :: r.trace⟩

/-- `Limiter.try_acquire`, asynchronous path (`_handle_async`): same
validation and weight-0 shortcut (they precede the branch in the
source), then awaits the wrapped item and runs the async
`handle_bucket_put`. -/
def try_acquire_async (L : Limiter) (factory : FactoryBehavior)
    (name : String) (weight : Int) : TAResult :=
  if weight < 0 then
    ⟨.error (.assertionError "item's weight must be >= 0"), []⟩
  else if weight = 0 then
    ⟨.ok true, []⟩
  else
    let item := wrap_item factory name weight
    match factory.buckets name with
    | none =>
      ⟨.error (.assertionError "Invalid bucket"),
        [.wrapItemCall name weight, .getBucketCall item]⟩
    | some bucket =>
      let r := handle_bucket_put_async L bucket item
      ⟨r.result, .wrapItemCall name weight :: .getBucketCall item :: r.trace⟩

/-- `Limiter.__init__`: stores the factory reference and policy
fields, and calls `bucket_factory.schedule_leak()` then
`bucket_factory.schedule_flush()`. -/
def limiter_init (raise_when_fail : Bool) (delay : Option Int) :
    Limiter × List Effect :=
  (⟨raise_when_fail, delay⟩, [.scheduleLeakCall, .scheduleFlushCall])

/-- One invocation of the wrapper produced by `Limiter.as_decorator`
(synchronous case: `try_acquire` returned a plain value).  The source
computes `(name, weight) = mapping(*args)`, asserts their types, runs
`accquire_ok = self.try_acquire(name, weight)` and, when the result is
not awaitable, executes `func(*args, **kwargs)`.  `funcRan` records
whether the wrapped callable was executed; `α`/`β` stand for the
callable's argument and result. -/
def decorator_call {α β : Type} (L : Limiter) (factory : FactoryBehavior)
    (mapping : α → String × Int) (func : α → β) (args : α) :
    Except PyError β × List Effect × Bool :=
  let nw := mapping args
  let acquire_ok := try_acquire L factory nw.1 nw.2
  match acquire_ok.result with
  | .error e => (.error e, acquire_ok.trace, false)
  | .ok _ => (.ok (func args), acquire_ok.trace, true)

/-- Modelled from the spec: the concrete bucket implementations
(`in_memory_bucket` and friends) are not under `src/`.  A bucket is an
ordered log of admitted `(timestamp, weight)` entries enforcing one
rate limit `{limit, interval}` over a sliding window. -/
structure SWBucket where
  limit : Int
  interval : Int
  log : List (Int × Int)
deriving DecidableEq, Repr

/-- Total weight of a list of `(timestamp, weight)` entries. -/
def wsum (l : List (Int × Int)) : Int :=
  l.foldr (fun e acc => e.2 + acc) 0

/-- Total weight of admitted entries whose timestamp lies in the
sliding interval `(t - interval, t]`. -/
def windowWeight (log : List (Int × Int)) (interval t : Int) : Int :=
  wsum (log.filter fun e => decide (t - interval < e.1 ∧ e.1 ≤ t))

/-- Modelled from the spec: atomic `put` of a contract-honoring
bucket.  The sliding-window invariant "is part of the core contract
every implementation must honor" under concurrent callers in any
order, so `put` admits an item exactly when the resulting log still
keeps every sliding interval within the limit; over a finite log it
suffices to check the windows ending at an admitted timestamp, where
the window weight attains its maximum
(`SWBucket.admissible_of_entryAdmissible`). -/
def SWBucket.put (b : SWBucket) (ts w : Int) : Bool × SWBucket :=
  if ((ts, w) :: b.log).all
      (fun e => decide
        (windowWeight ((ts, w) :: b.log) b.interval e.1 ≤ b.limit)) then
    (true, { b with log := (ts, w) :: b.log })
  else (false, b)

/-- Run a serialized sequence of atomic weight-`w` puts (any
interleaving of concurrent atomic calls is some such sequence). -/
def SWBucket.runPuts (b : SWBucket) : List (Int × Int) → SWBucket
  | [] => b
  | r :: rest => SWBucket.runPuts (b.put r.1 r.2).2 rest

/-- The admitted weight inside every sliding interval stays within the
bucket's limit. -/
def SWBucket.Admissible (b : SWBucket) : Prop :=
  ∀ t : Int, windowWeight b.log b.interval t ≤ b.limit

/-- The finite check `put` performs: every sliding interval ending at
an admitted timestamp is within the limit. -/
def SWBucket.EntryAdmissible (b : SWBucket) : Prop :=
  ∀ e ∈ b.log, windowWeight b.log b.interval e.1 ≤ b.limit

/-! ### Helper lemmas about `delay_or_raise` -/

/-- When the budget is set and the projected wait fits, the sync
branch sleeps, advances the timestamp, retries once and finishes
through `_handle_reacquire`. -/
theorem delay_or_raise_sync_within (L : Limiter) (bucket : BucketBehavior)
    (item : RateItem) (i : Nat) (budget : Int)
    (hd : L.delay = some budget)
    (hfit : bucket.availability item + 50 ≤ budget) :
    delay_or_raise_sync L bucket item i =
      ⟨handle_reacquire L bucket
          { item with timestamp := item.timestamp + (bucket.availability item + 50) }
          (bucket.put i { item with timestamp := item.timestamp + (bucket.availability item + 50) }),
        [.blockingSleep (bucket.availability item + 50),
         .putCall i { item with timestamp := item.timestamp + (bucket.availability item + 50) }],
        { item with timestamp := item.timestamp + (bucket.availability item + 50) }⟩ := by
  unfold delay_or_raise_sync
  rw [hd]
  simp only [not_lt.mpr hfit, if_false]

/-- Same computation for the async branch (`_handle_async`), with an
`asyncio.sleep` instead of a blocking sleep. -/
theorem delay_or_raise_async_within (L : Limiter) (bucket : BucketBehavior)
    (item : RateItem) (i : Nat) (budget : Int)
    (hd : L.delay = some budget)
    (hfit : bucket.availability item + 50 ≤ budget) :
    delay_or_raise_async L bucket item i =
      ⟨handle_reacquire L bucket
          { item with timestamp := item.timestamp + (bucket.availability item + 50) }
          (bucket.put i { item with timestamp := item.timestamp + (bucket.availability item + 50) }),
        [.asyncSleep (bucket.availability item + 50),
         .putCall i { item with timestamp := item.timestamp + (bucket.availability item + 50) }],
        { item with timestamp := item.timestamp + (bucket.availability item + 50) }⟩ := by
  unfold delay_or_raise_async
  rw [hd]
  simp only [not_lt.mpr hfit, if_false]

/-- When the budget is set and the projected wait exceeds it, the sync
branch fails immediately: no sleep, no further `put`, and the
raise/return-false policy decides the result. -/
theorem delay_or_raise_sync_over (L : Limiter) (bucket : BucketBehavior)
    (item : RateItem) (i : Nat) (budget : Int)
    (hd : L.delay = some budget)
    (hover : budget < bucket.availability item + 50) :
    delay_or_raise_sync L bucket item i =
      ⟨if L.raise_when_fail then
          match bucket.failing_rate with
          | none => .error (.assertionError "failing_rate is not None")
          | some r => .error (.bucketFull item.name r)
        else .ok false, [], item⟩ := by
  unfold delay_or_raise_sync
  rw [hd]
  simp only [hover, if_true]
  split <;> (try split) <;> rfl

/-- Over-budget behaviour of the async branch, identical in outcome. -/
theorem delay_or_raise_async_over (L : Limiter) (bucket : BucketBehavior)
    (item : RateItem) (i : Nat) (budget : Int)
    (hd : L.delay = some budget)
    (hover : budget < bucket.availability item + 50) :
    delay_or_raise_async L bucket item i =
      ⟨if L.raise_when_fail then
          match bucket.failing_rate with
          | none => .error (.assertionError "failing_rate is not None")
          | some r => .error (.bucketFull item.name r)
        else .ok false, [], item⟩ := by
  unfold delay_or_raise_async
  rw [hd]
  simp only [hover, if_true]
  split <;> (try split) <;> rfl

/-- With no budget (`delay is None`) both branches reject outright. -/
theorem delay_or_raise_none (L : Limiter) (bucket : BucketBehavior)
    (item : RateItem) (i : Nat) (hd : L.delay = none) :
    delay_or_raise_sync L bucket item i =
      ⟨if L.raise_when_fail then
          match bucket.failing_rate with
          | none => .error (.assertionError "failing_rate is not None")
          | some r => .error (.bucketFull item.name r)
        else .ok false, [], item⟩ ∧
    delay_or_raise_async L bucket item i =
      ⟨if L.raise_when_fail then
          match bucket.failing_rate with
          | none => .error (.assertionError "failing_rate is not None")
          | some r => .error (.bucketFull item.name r)
        else .ok false, [], item⟩ := by
  unfold delay_or_raise_sync delay_or_raise_async
  rw [hd]
  cases hf : bucket.failing_rate <;> cases hr : L.raise_when_fail <;> simp [hf, hr]

/-- Shape of a sync `try_acquire` run with a positive weight and a
registered bucket, in terms of `handle_bucket_put_sync`. -/
theorem try_acquire_pos (L : Limiter) (factory : FactoryBehavior)
    (name : String) (w : Int) (bucket : BucketBehavior)
    (hw : 0 < w) (hb : factory.buckets name = some bucket) :
    try_acquire L factory name w =
      ⟨(handle_bucket_put_sync L bucket (wrap_item factory name w)).result,
        .wrapItemCall name w :: .getBucketCall (wrap_item factory name w) ::
          (handle_bucket_put_sync L bucket (wrap_item factory name w)).trace⟩ := by
  unfold try_acquire
  rw [if_neg (by omega), if_neg (by omega), hb]

/-- Shape of an async `try_acquire` run with a positive weight and a
registered bucket. -/
theorem try_acquire_async_pos (L : Limiter) (factory : FactoryBehavior)
    (name : String) (w : Int) (bucket : BucketBehavior)
    (hw : 0 < w) (hb : factory.buckets name = some bucket) :
    try_acquire_async L factory name w =
      ⟨(handle_bucket_put_async L bucket (wrap_item factory name w)).result,
        .wrapItemCall name w :: .getBucketCall (wrap_item factory name w) ::
          (handle_bucket_put_async L bucket (wrap_item factory name w)).trace⟩ := by
  unfold try_acquire_async
  rw [if_neg (by omega), if_neg (by omega), hb]

/-! ### Lemmas about the spec-modelled sliding-window bucket -/

theorem wsum_cons (e : Int × Int) (l : List (Int × Int)) :
    wsum (e :: l) = e.2 + wsum l := rfl

/-- Summing a finer filter of a non-negative-weight list gives at most
the sum of a coarser filter. -/
theorem wsum_filter_mono (l : List (Int × Int)) (p q : Int × Int → Bool)
    (hpos : ∀ e ∈ l, 0 ≤ e.2)
    (himp : ∀ e ∈ l, p e = true → q e = true) :
    wsum (l.filter p) ≤ wsum (l.filter q) := by
  induction l with
  | nil => simp [wsum]
  | cons e l ih =>
    have hpos' : ∀ x ∈ l, 0 ≤ x.2 := fun x hx => hpos x (.tail _ hx)
    have himp' : ∀ x ∈ l, p x = true → q x = true := fun x hx => himp x (.tail _ hx)
    have he : 0 ≤ e.2 := hpos e (.head l)
    have hrec := ih hpos' himp'
    cases hp : p e with
    | true =>
      have hq := himp e (.head l) hp
      simp only [List.filter_cons, hp, hq, if_true, wsum_cons]
      omega
    | false =>
      cases hq : q e with
      | true =>
        simp [List.filter_cons, hp, hq, wsum_cons]
        omega
      | false =>
        simp [List.filter_cons, hp, hq]
        omega

/-- Every nonempty list of entries has one with maximal timestamp. -/
theorem exists_max_fst (l : List (Int × Int)) (h : l ≠ []) :
    ∃ m ∈ l, ∀ x ∈ l, x.1 ≤ m.1 := by
  induction l with
  | nil => exact absurd rfl h
  | cons a l ih =>
    cases l with
    | nil =>
      refine ⟨a, .head _, ?_⟩
      intro x hx
      rcases List.mem_cons.mp hx with h1 | h1
      · rw [h1]
      · simp at h1
    | cons c l' =>
      obtain ⟨m, hm, hmax⟩ := ih (by simp)
      by_cases hc : a.1 ≤ m.1
      · refine ⟨m, .tail _ hm, ?_⟩
        intro x hx
        rcases List.mem_cons.mp hx with h1 | h1
        · rw [h1]; exact hc
        · exact hmax x h1
      · refine ⟨a, .head _, ?_⟩
        intro x hx
        rcases List.mem_cons.mp hx with h1 | h1
        · rw [h1]
        · have := hmax x h1
          omega

/-- The window weight attains its supremum at a window ending on an
admitted timestamp, so the finite checks of `put` imply the full
sliding-window invariant. -/
theorem SWBucket.admissible_of_entryAdmissible (b : SWBucket)
    (hlim : 0 ≤ b.limit) (hpos : ∀ e ∈ b.log, 0 ≤ e.2)
    (hent : b.EntryAdmissible) : b.Admissible := by
  intro t
  by_cases hnil :
      b.log.filter (fun e => decide (t - b.interval < e.1 ∧ e.1 ≤ t)) = []
  · unfold windowWeight
    rw [hnil]
    exact hlim
  · obtain ⟨m, hm, hmax⟩ := exists_max_fst _ hnil
    have hmlog : m ∈ b.log := List.mem_of_mem_filter hm
    have hmp : t - b.interval < m.1 ∧ m.1 ≤ t := by
      have := List.of_mem_filter hm
      simpa using this
    have hmono : windowWeight b.log b.interval t ≤
        windowWeight b.log b.interval m.1 := by
      unfold windowWeight
      apply wsum_filter_mono _ _ _ hpos
      intro e he hpe
      simp only [decide_eq_true_eq] at hpe ⊢
      have hem : e ∈ b.log.filter
          (fun e => decide (t - b.interval < e.1 ∧ e.1 ≤ t)) :=
        List.mem_filter.mpr ⟨he, by simpa using hpe⟩
      have h1 := hmax e hem
      exact ⟨by omega, h1⟩
    have := hent m hmlog
    omega

/-- One atomic `put` preserves the entry checks and the
non-negativity of admitted weights, for any timestamp in any order. -/
theorem SWBucket.put_preserves (b : SWBucket) (ts w : Int)
    (hent : b.EntryAdmissible)
    (hpos : ∀ e ∈ b.log, 0 ≤ e.2)
    (hw : 0 ≤ w) :
    (b.put ts w).2.EntryAdmissible ∧
    (∀ e ∈ (b.put ts w).2.log, 0 ≤ e.2) ∧
    (b.put ts w).2.limit = b.limit ∧
    (b.put ts w).2.interval = b.interval := by
  unfold SWBucket.put
  by_cases hacc : ((ts, w) :: b.log).all
      (fun e => decide
        (windowWeight ((ts, w) :: b.log) b.interval e.1 ≤ b.limit)) = true
  · rw [if_pos hacc]
    refine ⟨?_, ?_, rfl, rfl⟩
    · intro e he
      have := List.all_eq_true.mp hacc e he
      simpa using this
    · intro e he
      rcases List.mem_cons.mp he with h1 | h1
      · rw [h1]; exact hw
      · exact hpos e h1
  · rw [if_neg hacc]
    exact ⟨hent, hpos, rfl, rfl⟩

/-- Running any serialized sequence of atomic non-negative-weight puts
— in any order — keeps the entry checks and weight non-negativity. -/
theorem SWBucket.runPuts_preserves (reqs : List (Int × Int)) (b : SWBucket)
    (hent : b.EntryAdmissible)
    (hpos : ∀ e ∈ b.log, 0 ≤ e.2)
    (hwts : ∀ r ∈ reqs, 0 ≤ r.2) :
    (SWBucket.runPuts b reqs).EntryAdmissible ∧
    (∀ e ∈ (SWBucket.runPuts b reqs).log, 0 ≤ e.2) ∧
    (SWBucket.runPuts b reqs).limit = b.limit ∧
    (SWBucket.runPuts b reqs).interval = b.interval := by
  induction reqs generalizing b with
  | nil => exact ⟨hent, hpos, rfl, rfl⟩
  | cons r rest ih =>
    obtain ⟨hent', hpos', hlim', hint'⟩ :=
      SWBucket.put_preserves b r.1 r.2 hent hpos (hwts r (.head rest))
    show (((b.put r.1 r.2).2.runPuts rest).EntryAdmissible) ∧ _
    obtain ⟨h1, h2, h3, h4⟩ :=
      ih (b.put r.1 r.2).2 hent' hpos' (fun x hx => hwts x (.tail _ hx))
    exact ⟨h1, h2, h3.trans hlim', h4.trans hint'⟩

/-! ### Claim theorems -/

/-- Claim C1: with a delay budget set, when the first `Bucket.put`
rejects the item and the projected wait (availability plus the 50 ms
jitter margin) does not exceed the budget, `try_acquire` suspends for
exactly the projected wait, advances the item's timestamp by exactly
that wait, and retries `put` exactly once: the trace holds exactly two
`put` calls and one suspension; an accepted retry yields `true`, a
rejected retry applies the raise/return-false policy with no second
wait-and-retry cycle.  The async discipline produces the same run with
a timer suspension. -/
theorem try_acquire_wait_and_retry_once
    (L : Limiter) (factory : FactoryBehavior) (name : String) (w : Int)
    (bucket : BucketBehavior) (budget d : Int) (item item2 : RateItem)
    (hitem : item = wrap_item factory name w)
    (hdval : d = bucket.availability item + 50)
    (hitem2 : item2 = { item with timestamp := item.timestamp + d })
    (hd : L.delay = some budget) (hw : 0 < w)
    (hb : factory.buckets name = some bucket)
    (hrej : bucket.put 0 item = false)
    (hfit : d ≤ budget) :
    try_acquire L factory name w =
      ⟨handle_reacquire L bucket item2 (bucket.put 1 item2),
        [.wrapItemCall name w, .getBucketCall item, .putCall 0 item,
         .blockingSleep d, .putCall 1 item2]⟩ ∧
    try_acquire_async L factory name w =
      ⟨handle_reacquire L bucket item2 (bucket.put 1 item2),
        [.wrapItemCall name w, .getBucketCall item, .putCall 0 item,
         .asyncSleep d, .putCall 1 item2]⟩ ∧
    (bucket.put 1 item2 = true →
      handle_reacquire L bucket item2 (bucket.put 1 item2) = .ok true) ∧
    (bucket.put 1 item2 = false → L.raise_when_fail = false →
      handle_reacquire L bucket item2 (bucket.put 1 item2) = .ok false) ∧
    (∀ r, bucket.put 1 item2 = false → L.raise_when_fail = true →
      bucket.failing_rate = some r →
      handle_reacquire L bucket item2 (bucket.put 1 item2) =
        .error (.bucketFull name r)) := by
  subst hitem hdval hitem2
  refine ⟨?_, ?_, ?_, ?_, ?_⟩
  · rw [try_acquire_pos L factory name w bucket hw hb]
    simp only [handle_bucket_put_sync, hrej, Bool.false_eq_true, if_false]
    rw [delay_or_raise_sync_within L bucket _ 1 budget hd hfit]
  · rw [try_acquire_async_pos L factory name w bucket hw hb]
    simp only [handle_bucket_put_async, hrej, Bool.false_eq_true, if_false]
    rw [delay_or_raise_async_within L bucket _ 1 budget hd hfit]
  · intro h
    simp [handle_reacquire, h]
  · intro h1 h2
    simp [handle_reacquire, h1, h2]
  · intro r h1 h2 h3
    rw [h1]
    simp [handle_reacquire, h2, h3, wrap_item]

/-- Witness for C1 at a concrete input: budget 500, availability 100,
first put rejected, retry accepted. -/
theorem try_acquire_wait_and_retry_once_witness :
    (try_acquire ⟨true, some 500⟩
        ⟨7, fun _ => some ⟨fun i _ => i == 1, fun _ => 100, some ⟨2, 1000⟩⟩⟩
        "a" 1).result = .ok true := by
  have h := try_acquire_wait_and_retry_once ⟨true, some 500⟩
      ⟨7, fun _ => some ⟨fun i _ => i == 1, fun _ => 100, some ⟨2, 1000⟩⟩⟩
      "a" 1 ⟨fun i _ => i == 1, fun _ => 100, some ⟨2, 1000⟩⟩ 500 150
      ⟨"a", 1, 7⟩ ⟨"a", 1, 157⟩ rfl rfl rfl rfl (by norm_num) rfl rfl
      (by norm_num)
  rw [h.1]
  exact h.2.2.1 rfl

/-- Claim C2: with a delay budget set, when the first `put` rejects
and the projected wait exceeds the budget, `try_acquire` fails
immediately — `BucketFullException` with the item's name and the
bucket's `failing_rate` when `raise_when_fail`, `false` otherwise —
with no suspension and no second `put` (the trace ends at the first
`put`).  Same for the async discipline. -/
theorem try_acquire_over_budget_fails_fast
    (L : Limiter) (factory : FactoryBehavior) (name : String) (w : Int)
    (bucket : BucketBehavior) (budget : Int) (r : Rate)
    (hd : L.delay = some budget) (hw : 0 < w)
    (hb : factory.buckets name = some bucket)
    (hrej : bucket.put 0 (wrap_item factory name w) = false)
    (hfr : bucket.failing_rate = some r)
    (hover : budget < bucket.availability (wrap_item factory name w) + 50) :
    try_acquire L factory name w =
      ⟨if L.raise_when_fail then .error (.bucketFull name r) else .ok false,
        [.wrapItemCall name w, .getBucketCall (wrap_item factory name w),
         .putCall 0 (wrap_item factory name w)]⟩ ∧
    try_acquire_async L factory name w =
      ⟨if L.raise_when_fail then .error (.bucketFull name r) else .ok false,
        [.wrapItemCall name w, .getBucketCall (wrap_item factory name w),
         .putCall 0 (wrap_item factory name w)]⟩ := by
  constructor
  · rw [try_acquire_pos L factory name w bucket hw hb]
    simp only [handle_bucket_put_sync, hrej, Bool.false_eq_true, if_false]
    rw [delay_or_raise_sync_over L bucket _ 1 budget hd hover]
    simp [hfr, wrap_item]
  · rw [try_acquire_async_pos L factory name w bucket hw hb]
    simp only [handle_bucket_put_async, hrej, Bool.false_eq_true, if_false]
    rw [delay_or_raise_async_over L bucket _ 1 budget hd hover]
    simp [hfr, wrap_item]

/-- Witness for C2 at a concrete input: budget 100, availability 100,
projected wait 150 > 100, raising policy. -/
theorem try_acquire_over_budget_fails_fast_witness :
    try_acquire ⟨true, some 100⟩
        ⟨7, fun _ => some ⟨fun _ _ => false, fun _ => 100, some ⟨2, 1000⟩⟩⟩
        "a" 1 =
      ⟨.error (.bucketFull "a" ⟨2, 1000⟩),
        [.wrapItemCall "a" 1, .getBucketCall ⟨"a", 1, 7⟩,
         .putCall 0 ⟨"a", 1, 7⟩]⟩ := by
  have h := try_acquire_over_budget_fails_fast ⟨true, some 100⟩
      ⟨7, fun _ => some ⟨fun _ _ => false, fun _ => 100, some ⟨2, 1000⟩⟩⟩
      "a" 1 ⟨fun _ _ => false, fun _ => 100, some ⟨2, 1000⟩⟩ 100 ⟨2, 1000⟩
      rfl (by norm_num) rfl rfl rfl (by norm_num)
  rw [h.1]
  rfl

/-- Claim C3: with `delay` unset, a rejected `put` is final: no
waiting, no retry; `BucketFullException` carrying the item's name and
the bucket's `failing_rate` under the raising policy, `false`
otherwise. -/
theorem try_acquire_no_delay_rejects_outright
    (L : Limiter) (factory : FactoryBehavior) (name : String) (w : Int)
    (bucket : BucketBehavior) (r : Rate)
    (hd : L.delay = none) (hw : 0 < w)
    (hb : factory.buckets name = some bucket)
    (hrej : bucket.put 0 (wrap_item factory name w) = false)
    (hfr : bucket.failing_rate = some r) :
    try_acquire L factory name w =
      ⟨if L.raise_when_fail then .error (.bucketFull name r) else .ok false,
        [.wrapItemCall name w, .getBucketCall (wrap_item factory name w),
         .putCall 0 (wrap_item factory name w)]⟩ := by
  rw [try_acquire_pos L factory name w bucket hw hb]
  simp only [handle_bucket_put_sync, hrej, Bool.false_eq_true, if_false]
  rw [(delay_or_raise_none L bucket (wrap_item factory name w) 1 hd).1]
  simp [hfr, wrap_item]

/-- Witness for C3 at a concrete input, with the non-raising policy. -/
theorem try_acquire_no_delay_rejects_outright_witness :
    try_acquire ⟨false, none⟩
        ⟨0, fun _ => some ⟨fun _ _ => false, fun _ => 0, some ⟨1, 1000⟩⟩⟩
        "a" 1 =
      ⟨.ok false,
        [.wrapItemCall "a" 1, .getBucketCall ⟨"a", 1, 0⟩,
         .putCall 0 ⟨"a", 1, 0⟩]⟩ := by
  have h := try_acquire_no_delay_rejects_outright ⟨false, none⟩
      ⟨0, fun _ => some ⟨fun _ _ => false, fun _ => 0, some ⟨1, 1000⟩⟩⟩
      "a" 1 ⟨fun _ _ => false, fun _ => 0, some ⟨1, 1000⟩⟩ ⟨1, 1000⟩
      rfl (by norm_num) rfl rfl rfl
  rw [h]
  rfl

/-- Claim C4: a weight-zero request is always admitted immediately,
for every limiter configuration and every factory/bucket state, and
the trace is empty — no `wrap_item`, `get` or `put` is ever invoked —
in both disciplines. -/
theorem try_acquire_weight_zero_admits
    (L : Limiter) (factory : FactoryBehavior) (name : String) :
    try_acquire L factory name 0 = ⟨.ok true, []⟩ ∧
    try_acquire_async L factory name 0 = ⟨.ok true, []⟩ := by
  constructor <;> rfl

/-- Claim C5: a negative weight fails the `assert weight >= 0`
validation before any Router or Bucket call (empty trace), in both
disciplines, and the failure is an `AssertionError`, never a
`BucketFullException` and never a boolean. -/
theorem try_acquire_negative_weight_validation
    (L : Limiter) (factory : FactoryBehavior) (name : String) (w : Int)
    (hw : w < 0) :
    try_acquire L factory name w =
      ⟨.error (.assertionError "item's weight must be >= 0"), []⟩ ∧
    try_acquire_async L factory name w =
      ⟨.error (.assertionError "item's weight must be >= 0"), []⟩ ∧
    (∀ n r, (try_acquire L factory name w).result ≠
      .error (.bucketFull n r)) ∧
    (∀ b, (try_acquire L factory name w).result ≠ .ok b) := by
  unfold try_acquire try_acquire_async
  rw [if_pos hw, if_pos hw]
  refine ⟨rfl, rfl, ?_, ?_⟩
  · intro n r h
    simp at h
  · intro b h
    simp at h

/-- Witness for C5 at weight `-1`. -/
theorem try_acquire_negative_weight_validation_witness :
    try_acquire ⟨true, none⟩ ⟨0, fun _ => none⟩ "a" (-1) =
      ⟨.error (.assertionError "item's weight must be >= 0"), []⟩ :=
  (try_acquire_negative_weight_validation ⟨true, none⟩ ⟨0, fun _ => none⟩
    "a" (-1) (by norm_num)).1

/-- The two `delay_or_raise` branches agree on result, final item,
`put` calls and sleep durations for every input. -/
theorem delay_or_raise_parity (L : Limiter) (bucket : BucketBehavior)
    (item : RateItem) (i : Nat) :
    (delay_or_raise_async L bucket item i).result =
      (delay_or_raise_sync L bucket item i).result ∧
    (delay_or_raise_async L bucket item i).item =
      (delay_or_raise_sync L bucket item i).item ∧
    putEvents (delay_or_raise_async L bucket item i).trace =
      putEvents (delay_or_raise_sync L bucket item i).trace ∧
    sleepDurations (delay_or_raise_async L bucket item i).trace =
      sleepDurations (delay_or_raise_sync L bucket item i).trace := by
  cases hdel : L.delay with
  | none =>
    rw [(delay_or_raise_none L bucket item i hdel).1,
        (delay_or_raise_none L bucket item i hdel).2]
    exact ⟨rfl, rfl, rfl, rfl⟩
  | some budget =>
    by_cases hc : bucket.availability item + 50 ≤ budget
    · rw [delay_or_raise_sync_within L bucket item i budget hdel hc,
          delay_or_raise_async_within L bucket item i budget hdel hc]
      exact ⟨rfl, rfl, rfl, rfl⟩
    · rw [delay_or_raise_sync_over L bucket item i budget hdel (by omega),
          delay_or_raise_async_over L bucket item i budget hdel (by omega)]
      exact ⟨rfl, rfl, rfl, rfl⟩

/-- Claim C6: for identical inputs and identical collaborator
behaviour, the blocking and the suspending path of the orchestrator
produce the same result (admit/reject decision or raised failure), the
same sequence of `put` calls (hence the same retry count and the same
advanced timestamps) and the same sleep durations (hence the same
computed delay). -/
theorem sync_async_disciplines_agree (L : Limiter)
    (factory : FactoryBehavior) (name : String) (w : Int) :
    (try_acquire_async L factory name w).result =
      (try_acquire L factory name w).result ∧
    putEvents (try_acquire_async L factory name w).trace =
      putEvents (try_acquire L factory name w).trace ∧
    sleepDurations (try_acquire_async L factory name w).trace =
      sleepDurations (try_acquire L factory name w).trace := by
  by_cases h1 : w < 0
  · simp [try_acquire, try_acquire_async, h1]
  · by_cases h2 : w = 0
    · simp [try_acquire, try_acquire_async, h1, h2]
    · cases hb : factory.buckets name with
      | none => simp [try_acquire, try_acquire_async, h1, h2, hb]
      | some bucket =>
        have hw : 0 < w := by omega
        rw [try_acquire_pos L factory name w bucket hw hb,
            try_acquire_async_pos L factory name w bucket hw hb]
        simp only [handle_bucket_put_sync, handle_bucket_put_async]
        cases hput : bucket.put 0 (wrap_item factory name w) with
        | true => simp [hput]
        | false =>
          simp only [hput, Bool.false_eq_true, if_false]
          obtain ⟨hres, hit, hpe, hsl⟩ :=
            delay_or_raise_parity L bucket (wrap_item factory name w) 1
          simp [putEvents, sleepDurations, hres, hpe, hsl]

/-- Claim C7 (spec-modelled bucket): any number of concurrent weight-1
`put` calls against a bucket of capacity `K` never jointly admit more
than `K` weight units inside any sliding interval, at every prefix of
the run.  Each `put` is atomic by contract, so any concurrent schedule
— any thread/process/task mix and any timing — executes as some
serialization `reqs`; no ordering of the timestamps is assumed. -/
theorem concurrent_puts_never_exceed_capacity
    (K interval : Int) (hK : 0 ≤ K)
    (reqs : List (Int × Int))
    (hw1 : ∀ r ∈ reqs, r.2 = 1)
    (n : Nat) :
    (SWBucket.runPuts ⟨K, interval, []⟩ (reqs.take n)).Admissible := by
  obtain ⟨hent, hpos, hlim, hint⟩ :=
    SWBucket.runPuts_preserves (reqs.take n) ⟨K, interval, []⟩
      (by intro e he; simp at he)
      (by intro e he; simp at he)
      (by
        intro r hr
        have := hw1 r (List.take_subset n reqs hr)
        omega)
  apply SWBucket.admissible_of_entryAdmissible
  · rw [hlim]; exact hK
  · exact hpos
  · exact hent

/-- Witness for C7 on an out-of-order serialization: capacity 1 per
1000 ms, a put at time 12 then a put at time 10 — the invariant holds
at every prefix, and the second put is rejected rather than
double-admitted into the window ending at 12. -/
theorem concurrent_puts_never_exceed_capacity_witness :
    ((0 : Int) ≤ 1) ∧
    (∀ r ∈ [((12 : Int), (1 : Int)), (10, 1)], r.2 = 1) ∧
    (SWBucket.runPuts ⟨1, 1000, []⟩
        ([((12 : Int), (1 : Int)), (10, 1)].take 2)).Admissible ∧
    (SWBucket.runPuts ⟨1, 1000, []⟩
        [((12 : Int), (1 : Int)), (10, 1)]).log = [(12, 1)] :=
  ⟨by norm_num, by decide,
    concurrent_puts_never_exceed_capacity 1 1000 (by norm_num)
      [((12 : Int), (1 : Int)), (10, 1)] (by decide) 2,
    by decide⟩

/-- Claim C8 (code bug): the decorator wrapper computes
`accquire_ok = self.try_acquire(name, weight)` but never branches on
the boolean — with `raise_when_fail = False` and no delay, a rejected
`try_acquire` returns `False`, yet the wrapped callable is still
executed and its value returned. -/
theorem decorator_runs_func_despite_rejection :
    (try_acquire ⟨false, none⟩
        ⟨0, fun _ => some ⟨fun _ _ => false, fun _ => 0, some ⟨1, 1000⟩⟩⟩
        "a" 1).result = .ok false ∧
    decorator_call ⟨false, none⟩
        ⟨0, fun _ => some ⟨fun _ _ => false, fun _ => 0, some ⟨1, 1000⟩⟩⟩
        (fun _ : Nat => ("a", 1)) (fun n => n + 1) 5 =
      (.ok 6,
        [.wrapItemCall "a" 1, .getBucketCall ⟨"a", 1, 0⟩,
         .putCall 0 ⟨"a", 1, 0⟩], true) := by
  constructor <;> rfl

/-- Claim C9 counterexample: `Limiter.__init__` itself invokes
`schedule_leak` and `schedule_flush` on the bucket factory — the start
of the background duties is triggered by the Limiter's constructor,
not (only) at Router construction. -/
theorem limiter_init_triggers_schedules :
    Effect.scheduleLeakCall ∈ (limiter_init true none).2 ∧
    Effect.scheduleFlushCall ∈ (limiter_init true none).2 := by
  constructor <;> simp [limiter_init]

/-- Claim C9 (amended): every `Limiter` construction invokes
`bucket_factory.schedule_leak()` then `bucket_factory.schedule_flush()`
— the leak and flush duties are started at Limiter construction, for
any configuration. -/
theorem limiter_init_schedules (rwf : Bool) (d : Option Int) :
    (limiter_init rwf d).2 = [.scheduleLeakCall, .scheduleFlushCall] ∧
    (limiter_init rwf d).1 = ⟨rwf, d⟩ :=
  ⟨rfl, rfl⟩

/-- Claim C10: with a budget set, the fixed jitter margin is exactly
50 time units in both the sync and the async branch: when the
projected wait `availability + 50` fits the budget, exactly that
amount is slept and added to the timestamp in either branch, and when
it exceeds the budget neither branch sleeps — so the compared, slept
and added quantity is `availability + 50` in both. -/
theorem jitter_margin_is_50 (L : Limiter) (bucket : BucketBehavior)
    (item : RateItem) (i : Nat) (budget : Int)
    (hd : L.delay = some budget) :
    (bucket.availability item + 50 ≤ budget →
      sleepDurations (delay_or_raise_sync L bucket item i).trace =
        [bucket.availability item + 50] ∧
      sleepDurations (delay_or_raise_async L bucket item i).trace =
        [bucket.availability item + 50] ∧
      (delay_or_raise_sync L bucket item i).item.timestamp =
        item.timestamp + (bucket.availability item + 50) ∧
      (delay_or_raise_async L bucket item i).item.timestamp =
        item.timestamp + (bucket.availability item + 50)) ∧
    (budget < bucket.availability item + 50 →
      sleepDurations (delay_or_raise_sync L bucket item i).trace = [] ∧
      sleepDurations (delay_or_raise_async L bucket item i).trace = []) := by
  constructor
  · intro hfit
    rw [delay_or_raise_sync_within L bucket item i budget hd hfit,
        delay_or_raise_async_within L bucket item i budget hd hfit]
    exact ⟨rfl, rfl, rfl, rfl⟩
  · intro hover
    rw [delay_or_raise_sync_over L bucket item i budget hd hover,
        delay_or_raise_async_over L bucket item i budget hd hover]
    exact ⟨rfl, rfl⟩

/-- Witness for C10: availability 100, budget 500 — both branches
sleep exactly 150 and advance the timestamp to 150. -/
theorem jitter_margin_is_50_witness :
    sleepDurations (delay_or_raise_sync ⟨true, some 500⟩
        ⟨fun _ _ => true, fun _ => 100, some ⟨2, 1000⟩⟩ ⟨"a", 1, 0⟩ 1).trace =
      [(100 : Int) + 50] ∧
    sleepDurations (delay_or_raise_async ⟨true, some 500⟩
        ⟨fun _ _ => true, fun _ => 100, some ⟨2, 1000⟩⟩ ⟨"a", 1, 0⟩ 1).trace =
      [(100 : Int) + 50] ∧
    (delay_or_raise_sync ⟨true, some 500⟩
        ⟨fun _ _ => true, fun _ => 100, some ⟨2, 1000⟩⟩
        ⟨"a", 1, 0⟩ 1).item.timestamp = (0 : Int) + ((100 : Int) + 50) ∧
    (delay_or_raise_async ⟨true, some 500⟩
        ⟨fun _ _ => true, fun _ => 100, some ⟨2, 1000⟩⟩
        ⟨"a", 1, 0⟩ 1).item.timestamp = (0 : Int) + ((100 : Int) + 50) :=
  (jitter_margin_is_50 ⟨true, some 500⟩
    ⟨fun _ _ => true, fun _ => 100, some ⟨2, 1000⟩⟩ ⟨"a", 1, 0⟩ 1 500
    rfl).1 (by norm_num)

end PyrateLimiter
